import Mathlib

/-!
Shallow embedding of the thumbnail-cache pipeline of the photo-farm
repository (src/main.rs, src/db.rs, src/metadata.rs).

Modelling conventions:
  - the sqlite table `photos` is a list of rows in insertion order;
  - machine integers (i64, u32) are `Int`/`Nat`: none of the embedded
    arithmetic can overflow in the source's ranges;
  - disk, JPEG decode and JPEG encode are external effects: a pass is
    parameterised by an oracle `lo : String -> Except Error Bytes` giving,
    per photo name, the outcome of `load_image` followed by `resize_jpg`,
    and `md : String -> Option ImageMetadata` giving the EXIF metadata;
  - fallible Rust functions returning `Result` become `Except Error`.
-/

namespace PhotoFarm

/-- Encoded image bytes (`Vec<u8>` in the source). -/
abbrev Bytes := List Nat

/-- Error enum of src/main.rs (payloads dropped: they never influence
control flow in the embedded code). -/
inductive Error where
  | io
  | image
  | log
  | sqlite
  | invalidArgs
  | exif
  | noImageMetadata
  | exifDateTime
  | noExifDateTime
deriving Repr, DecidableEq

/-- Pixel size (`speedy2d::dimen::UVec2`). -/
structure UVec2 where
  x : Nat
  y : Nat
deriving Repr, DecidableEq

/-- One persisted row of the `photos` table (src/db.rs `create_schema`):
name TEXT, x_res INTEGER, y_res INTEGER, resized BLOB, is_starred INTEGER,
date_time INTEGER. -/
structure Row where
  name : String
  x_res : Int
  y_res : Int
  resized : Option Bytes
  is_starred : Int
  date_time : Int
deriving Repr, DecidableEq

/-- The `photos` table, rows in insertion order. -/
abbrev Db := List Row

/-- The WHERE clause shared by `photo_exists` and `try_get_image_from_db`:
name = :name AND x_res = :x_res AND y_res = :y_res. -/
def rowMatches (name : String) (size : UVec2) (r : Row) : Bool :=
  r.name == name && r.x_res == (size.x : Int) && r.y_res == (size.y : Int)

/-- db.rs `photo_exists`: SELECT 1 ... WHERE name/x_res/y_res match;
true iff some row matches. -/
def photo_exists (name : String) (size : UVec2) (db : Db) : Bool :=
  db.any (rowMatches name size)

/-- db.rs `try_get_image_from_db`: SELECT resized ... WHERE name/x_res/y_res
match AND NOT resized IS NULL; returns the blob of the first such row. -/
def try_get_image_from_db (name : String) (size : UVec2) (db : Db) :
    Option Bytes :=
  match db.find? (fun r => rowMatches name size r && r.resized.isSome) with
  | some r => r.resized
  | none => none

/-- metadata.rs `ImageMetadata`. -/
structure ImageMetadata where
  orientation : Option Nat
  iso : Option String
  model : Option String
  exposure_time : Option String
  f_number : Option String
  date_time : Option String
  focal_length : Option String
deriving Repr, DecidableEq

/-- Gregorian leap-year test (chrono). -/
def isLeapYear (y : Int) : Bool :=
  y % 4 == 0 && (y % 100 != 0 || y % 400 == 0)

/-- Days in a month of the proleptic Gregorian calendar (chrono). -/
def daysInMonth (y : Int) (m : Nat) : Nat :=
  if m == 2 then (if isLeapYear y then 29 else 28)
  else if m == 4 || m == 6 || m == 9 || m == 11 then 30
  else 31

/-- Days from the Unix epoch to civil date y-m-d (Howard Hinnant's
`days_from_civil`, the arithmetic underlying chrono's timestamp). -/
def daysFromCivil (y : Int) (m d : Nat) : Int :=
  let y2 : Int := if m ≤ 2 then y - 1 else y
  let era : Int := (if 0 ≤ y2 then y2 else y2 - 399) / 400
  let yoe : Int := y2 - era * 400
  let mp : Int := ((m : Int) + 9) % 12
  let doy : Int := (153 * mp + 2) / 5 + (d : Int) - 1
  let doe : Int := yoe * 365 + yoe / 4 - yoe / 100 + doy
  era * 146097 + doe - 719468

/-- Parse a run of decimal digits as a Nat, failing on empty or
non-digit input. -/
def parseDecimal (s : String) : Option Nat :=
  if s.length > 0 && s.toList.all Char.isDigit then
    some (s.toList.foldl (fun a c => a * 10 + (c.toNat - 48)) 0)
  else
    none

/-- metadata.rs `string_to_unix_timestamp`: chrono
NaiveDateTime::parse_from_str with format "%Y-%m-%d %H:%M:%S" followed by
`.timestamp()`; `none` models the Err branch. -/
def string_to_unix_timestamp (s : String) : Option Int :=
  match s.splitOn " " with
  | [date, time] =>
    match date.splitOn "-", time.splitOn ":" with
    | [ys, ms, ds], [hs, mins, ss] =>
      match parseDecimal ys, parseDecimal ms, parseDecimal ds,
          parseDecimal hs, parseDecimal mins, parseDecimal ss with
      | some y, some m, some d, some h, some mi, some sec =>
        if 1 ≤ m && m ≤ 12 && 1 ≤ d && d ≤ daysInMonth (y : Int) m &&
            h < 24 && mi < 60 && sec < 60 then
          some (daysFromCivil (y : Int) m d * 86400 +
            (h : Int) * 3600 + (mi : Int) * 60 + (sec : Int))
        else
          none
      | _, _, _, _, _, _ => none
    | _, _ => none
  | _ => none

/-- metadata.rs `ImageMetadata::try_get_timestamp_from_date_time`:
parse the DateTime string if present, defaulting to 0 on absence or
parse failure. -/
def ImageMetadata.try_get_timestamp_from_date_time
    (m : ImageMetadata) : Int :=
  match m.date_time with
  | some s => (string_to_unix_timestamp s).getD 0
  | none => 0

/-- db.rs `insert_image`: INSERT INTO photos VALUES (name, x, y, resized,
0, date_time) with date_time taken from the metadata when present,
0 otherwise.  No existence check of any kind. -/
def insert_image (name : String) (size : UVec2) (resized : Bytes)
    (metadata : Option ImageMetadata) (db : Db) : Db :=
  let date_time : Int :=
    match metadata with
    | some m => m.try_get_timestamp_from_date_time
    | _ => 0
  db ++ [{ name := name, x_res := (size.x : Int), y_res := (size.y : Int),
           resized := some resized, is_starred := 0, date_time := date_time }]

/-- db.rs `update_image_is_starred`: UPDATE photos SET is_starred = :b
WHERE name = :name — every row whose name matches, at every resolution. -/
def update_image_is_starred (name : String) (is_starred : Bool)
    (db : Db) : Db :=
  db.map (fun r =>
    if r.name == name then
      { r with is_starred := if is_starred then 1 else 0 }
    else r)

/-- db.rs `get_starred_image_names`: SELECT name FROM photos WHERE
is_starred = TRUE; the HashSet is modelled as the list of names, with
membership as the set observation. -/
def get_starred_image_names (db : Db) : List String :=
  (db.filter (fun r => r.is_starred == 1)).map Row.name

/-- A dynamically-typed sqlite value as stored in a column of a
persisted row. -/
inductive SqlValue where
  | null
  | int (i : Int)
  | text (s : String)
  | blob (b : Bytes)
deriving Repr, DecidableEq

/-- One persisted row as found on disk at startup, before the shape
check: six column slots of dynamic type. -/
structure RawRow where
  name : SqlValue
  x_res : SqlValue
  y_res : SqlValue
  resized : SqlValue
  is_starred : SqlValue
  date_time : SqlValue
deriving Repr, DecidableEq

/-- The persisted table as found on disk.  `none` models the case where
preparing the SELECT of the six expected columns itself fails (table or
column missing from an old schema). -/
abbrev RawStore := Option (List RawRow)

/-- The sqlite crate's `read::<String>`: succeeds only on a TEXT value. -/
def readText : SqlValue → Option String
  | .text s => some s
  | _ => none

/-- The sqlite crate's `read::<i64>`: succeeds only on an INTEGER value. -/
def readInt : SqlValue → Option Int
  | .int i => some i
  | _ => none

/-- The sqlite crate's `read::<Vec<u8>>`: succeeds only on a BLOB value. -/
def readBlob : SqlValue → Option Bytes
  | .blob b => some b
  | _ => none

/-- db.rs `create_schema`: DROP TABLE IF EXISTS photos then CREATE TABLE
photos — the resulting store is a well-formed empty table. -/
def create_schema : RawStore := some []

/-- db.rs `schema_is_ok`: prepare the SELECT of the six expected columns
(failure when the shape is wrong), read the first row (no row: Ok false),
and read each column at its expected type (any failure: Err). -/
def schema_is_ok (store : RawStore) : Except Error Bool :=
  match store with
  | none => .error .sqlite
  | some [] => .ok false
  | some (r :: _) =>
    match readText r.name, readInt r.x_res, readInt r.y_res,
        readBlob r.resized, readInt r.is_starred, readInt r.date_time with
    | some _, some _, some _, some _, some _, some _ => .ok true
    | _, _, _, _, _, _ => .error .sqlite

/-- db.rs `check_schema`: keep the store when `schema_is_ok` says true,
recreate it (destructively) when it says false or fails; the function
itself returns Ok in every case. -/
def check_schema (store : RawStore) : Except Error RawStore :=
  match schema_is_ok store with
  | .ok true => .ok store
  | .ok false => .ok create_schema
  | .error _ => .ok create_schema

/-- db.rs `get_or_create_db`: open an existing database file and run
`check_schema` on it, or create the schema from scratch when the file
does not exist (`none`). -/
def get_or_create_db (file : Option RawStore) : Except Error RawStore :=
  match file with
  | some store => check_schema store
  | none => .ok create_schema

/-- A decoded raster (`image::DynamicImage`), observed through its pixel
dimensions. -/
structure DynamicImage where
  width : Nat
  height : Nat
deriving Repr, DecidableEq

/-- `DynamicImage::rotate90`: quarter turn clockwise, dimensions swap. -/
def rotate90 (img : DynamicImage) : DynamicImage :=
  { width := img.height, height := img.width }

/-- `DynamicImage::rotate180`: half turn, dimensions unchanged. -/
def rotate180 (img : DynamicImage) : DynamicImage :=
  { width := img.width, height := img.height }

/-- `DynamicImage::rotate270`: quarter turn anticlockwise, dimensions
swap. -/
def rotate270 (img : DynamicImage) : DynamicImage :=
  { width := img.height, height := img.width }

/-- main.rs `load_image`, after the JPEG decode: the match on
`get_metadata(path, name)` selecting the rotation.  `decoded` is the
decoded source raster and `meta` the outcome of `get_metadata` (an EXIF
read that may fail).  Every branch other than Ok with orientation 8, 3
or 6 — including the Err branch — leaves the image unrotated. -/
def load_image (decoded : DynamicImage)
    (meta : Except Error ImageMetadata) : DynamicImage :=
  match meta with
  | .ok { orientation := some 8, .. } => rotate270 decoded
  | .ok { orientation := some 3, .. } => rotate180 decoded
  | .ok { orientation := some 6, .. } => rotate90 decoded
  | _ => decoded

/-- main.rs `load_and_insert_image`, success-envelope model used by the
pass theorems: the oracle `lo` gives the bytes produced by `load_image`
plus `resize_jpg` for a given name when both succeed, or an error value
otherwise, and `md` the metadata passed to the insert.  The pass
theorems built on this model assume every load succeeds.  The failure
behaviour of the source — including the decode unwrap inside
`load_image` that panics the thread instead of returning an error, and
the fallible sqlite insert — is modelled separately and faithfully by
`load_and_insert_image_f` further below. -/
def load_and_insert_image (lo : String → Except Error Bytes)
    (md : String → Option ImageMetadata) (name : String) (size : UVec2)
    (db : Db) : Except Error (Bytes × Db) :=
  match lo name with
  | .error e => .error e
  | .ok resized => .ok (resized, insert_image name size resized (md name) db)

/-- The pass-visible state threaded through `update_cache`: the shared
table, the local `num_processed` counter, the shared progress percentage
(AtomicI32), and the trace of values stored into it (oldest first). -/
structure PassState where
  db : Db
  num_processed : Nat
  progress : Int
  events : List Int
deriving Repr, DecidableEq

/-- The progress value computed in main.rs `update_cache_image`:
`(100.0 * num_processed as f64 / num_images as f64).ceil() as i32`, i.e.
the ceiling of 100*p/n, exact in f64 for every feasible photo count. -/
def progressPercentage (num_processed num_images : Nat) : Int :=
  ((100 * num_processed + num_images - 1) / num_images : Nat)

/-- main.rs `update_cache_image`: skip the photo when `photo_exists`,
otherwise build it via `load_and_insert_image` (propagating failure),
then bump `num_processed`, store the ceiling percentage into the shared
progress counter and emit a redraw (the store is recorded in `events`). -/
def update_cache_image (lo : String → Except Error Bytes)
    (md : String → Option ImageMetadata) (num_images : Nat) (size : UVec2)
    (name : String) (st : PassState) : Except Error PassState :=
  match
    (if photo_exists name size st.db then
      .ok st.db
    else
      match load_and_insert_image lo md name size st.db with
      | .error e => .error e
      | .ok (_, db2) => .ok db2 : Except Error Db)
  with
  | .error e => .error e
  | .ok db2 =>
    let np := st.num_processed + 1
    let pct := progressPercentage np num_images
    .ok { db := db2, num_processed := np, progress := pct,
          events := st.events ++ [pct] }

/-- One `for` loop of main.rs `update_cache`: run `update_cache_image`
over the listed names in order, stopping at the first failure; the state
reached so far is kept (rows already inserted are not rolled back) and
the error is reported alongside it. -/
def run_items (lo : String → Except Error Bytes)
    (md : String → Option ImageMetadata) (num_images : Nat) (size : UVec2) :
    List String → PassState → PassState × Option Error
  | [], st => (st, none)
  | n :: rest, st =>
    match update_cache_image lo md num_images size n st with
    | .error e => (st, some e)
    | .ok st2 => run_items lo md num_images size rest st2

/-- main.rs `update_cache`: first loop over `.skip(image_index + 1)`,
then — when it succeeded — the wrap-around loop over
`.take(image_index + 1)`.  `num_processed` starts at 0. -/
def update_cache (lo : String → Except Error Bytes)
    (md : String → Option ImageMetadata) (names : List String)
    (image_index : Nat) (size : UVec2) (db : Db) (progress0 : Int) :
    PassState × Option Error :=
  match run_items lo md names.length size (names.drop (image_index + 1))
      { db := db, num_processed := 0, progress := progress0, events := [] } with
  | (st1, some e) => (st1, some e)
  | (st1, none) =>
    run_items lo md names.length size (names.take (image_index + 1)) st1

/-- The sequence of photo names one pass examines: the `.skip(k+1)` loop
followed by the `.take(k+1)` loop of `update_cache`. -/
def walkNames (names : List String) (image_index : Nat) : List String :=
  names.drop (image_index + 1) ++ names.take (image_index + 1)

/-- main.rs `resolution_ok`: the guard in `on_resize` suppressing the
initial 800x600 callback. -/
def resolution_ok (screen_resolution : UVec2) : Bool :=
  screen_resolution.x > 800

/-- One spawned `update_cache` thread: its target size, the photo count
captured at spawn (`image_file_names.len()`), its local `num_processed`,
and the walk suffix it has still to examine. -/
structure WorkerThread where
  size : UVec2
  total : Nat
  num_processed : Nat
  rest : List String
deriving Repr, DecidableEq

/-- The state shared between the window handler and every spawned
worker thread: the sqlite table and the AtomicI32 progress counter. -/
structure Sys where
  db : Db
  threads : List WorkerThread
  progress : Int
deriving Repr, DecidableEq

/-- An observable scheduling event of the running program: a resize
callback on the UI thread (with the handler's current `image_index`), or
the scheduler letting worker `t` run one per-photo iteration of its
`update_cache` loop. -/
inductive SysEvent where
  | resize (size : UVec2) (image_index : Nat)
  | step (t : Nat)
deriving Repr, DecidableEq

/-- main.rs `MyWindowHandler::on_resize`: when the new resolution passes
`resolution_ok`, spawn a fresh `update_cache` thread for it, walking
from the handler's current `image_index`; the already-running threads
are left untouched — nothing signals or cancels them. -/
def on_resize (names : List String) (size : UVec2) (image_index : Nat)
    (s : Sys) : Sys :=
  if resolution_ok size then
    { s with threads := s.threads ++
        [{ size := size, total := names.length, num_processed := 0,
           rest := walkNames names image_index }] }
  else s

/-- One scheduler step of worker `t`: run `update_cache_image` on the
head of its remaining walk against the shared table and progress
counter.  A build failure makes the thread's loop return early (its
remaining walk is dropped); a thread with an empty walk is finished and
stepping it does nothing. -/
def sys_step (lo : String → Except Error Bytes)
    (md : String → Option ImageMetadata) (e : SysEvent) (names : List String)
    (s : Sys) : Sys :=
  match e with
  | .resize size image_index => on_resize names size image_index s
  | .step t =>
    match s.threads[t]? with
    | none => s
    | some th =>
      match th.rest with
      | [] => s
      | n :: rest2 =>
        match update_cache_image lo md th.total th.size n
            { db := s.db, num_processed := th.num_processed,
              progress := s.progress, events := [] } with
        | .error _ =>
          { s with threads := s.threads.set t { th with rest := [] } }
        | .ok st2 =>
          { db := st2.db,
            threads := s.threads.set t
              { th with num_processed := st2.num_processed, rest := rest2 },
            progress := st2.progress }

/-- Run the system model over a list of scheduling events. -/
def run_sys (lo : String → Except Error Bytes)
    (md : String → Option ImageMetadata) (names : List String)
    (events : List SysEvent) (s : Sys) : Sys :=
  match events with
  | [] => s
  | e :: rest => run_sys lo md names rest (sys_step lo md e names s)

/-! Helper lemmas shared by the claim theorems. -/

theorem photo_exists_iff (name : String) (size : UVec2) (db : Db) :
    photo_exists name size db = true ↔
      ∃ r ∈ db, rowMatches name size r = true := by
  simp [photo_exists, List.any_eq_true]

theorem rowMatches_iff (name : String) (size : UVec2) (r : Row) :
    rowMatches name size r = true ↔
      r.name = name ∧ r.x_res = (size.x : Int) ∧ r.y_res = (size.y : Int) := by
  simp [rowMatches, Bool.and_eq_true, beq_iff_eq, and_assoc]

theorem mem_get_starred_iff (name : String) (db : Db) :
    name ∈ get_starred_image_names db ↔
      ∃ r ∈ db, r.name = name ∧ r.is_starred = 1 := by
  simp only [get_starred_image_names, List.mem_map, List.mem_filter,
    beq_iff_eq]
  constructor
  · rintro ⟨r, ⟨hr, hs⟩, hn⟩
    exact ⟨r, hr, hn, hs⟩
  · rintro ⟨r, hr, hn, hs⟩
    exact ⟨r, ⟨hr, hs⟩, hn⟩

theorem mem_starred_update_true (name : String) (db : Db)
    (h : ∃ r ∈ db, r.name = name) :
    name ∈ get_starred_image_names (update_image_is_starred name true db) := by
  obtain ⟨r, hr, hn⟩ := h
  rw [mem_get_starred_iff]
  refine ⟨{ r with is_starred := 1 }, ?_, hn, rfl⟩
  have : ({ r with is_starred := 1 } : Row) =
      (fun r0 : Row => if r0.name == name then
        { r0 with is_starred := if true then 1 else 0 } else r0) r := by
    simp [hn]
  rw [update_image_is_starred, this]
  exact List.mem_map_of_mem _ hr

theorem not_mem_starred_update_false (name : String) (db : Db) :
    name ∉ get_starred_image_names (update_image_is_starred name false db) := by
  rw [mem_get_starred_iff]
  rintro ⟨r, hr, hn, hs⟩
  rw [update_image_is_starred] at hr
  obtain ⟨r0, _, hmap⟩ := List.mem_map.mp hr
  by_cases h0 : r0.name = name
  · rw [if_pos (by simpa [beq_iff_eq] using h0)] at hmap
    rw [← hmap] at hs
    simp at hs
  · rw [if_neg (by simpa [beq_iff_eq] using h0)] at hmap
    rw [← hmap] at hn
    exact h0 hn

theorem update_is_starred_getElem (name : String) (b : Bool) (db : Db)
    (i : Nat) (hi : i < db.length) :
    (update_image_is_starred name b db).get
      ⟨i, by simpa [update_image_is_starred] using hi⟩ =
      (if (db.get ⟨i, hi⟩).name = name then
        { db.get ⟨i, hi⟩ with is_starred := if b then 1 else 0 }
      else db.get ⟨i, hi⟩) := by
  simp only [update_image_is_starred, List.get_eq_getElem, List.getElem_map]
  by_cases h0 : db[i].name = name
  · rw [if_pos (by simpa [beq_iff_eq] using h0), if_pos h0]
  · rw [if_neg (by simpa [beq_iff_eq] using h0), if_neg h0]

/-- C9: the byte-lookup returns bytes only when a row matching name,
width and height exists with a non-null bytes field; it returns `none`
exactly when every matching row (if any) has null bytes — so a missing
row and a row without bytes are indistinguishable to the caller. -/
theorem try_get_image_from_db_spec (name : String) (size : UVec2) (db : Db) :
    (∀ b, try_get_image_from_db name size db = some b →
      ∃ r ∈ db, rowMatches name size r = true ∧ r.resized = some b) ∧
    (try_get_image_from_db name size db = none ↔
      ∀ r ∈ db, rowMatches name size r = true → r.resized = none) := by
  constructor
  · intro b hb
    unfold try_get_image_from_db at hb
    cases hf : db.find? (fun r => rowMatches name size r && r.resized.isSome) with
    | none => rw [hf] at hb; exact absurd hb (by simp)
    | some r =>
      rw [hf] at hb
      have hmem := List.mem_of_find?_eq_some hf
      have hp := List.find?_some hf
      simp only [Bool.and_eq_true] at hp
      exact ⟨r, hmem, hp.1, hb⟩
  · unfold try_get_image_from_db
    cases hf : db.find? (fun r => rowMatches name size r && r.resized.isSome) with
    | none =>
      rw [List.find?_eq_none] at hf
      refine iff_of_true rfl ?_
      intro r hr hm
      have h2 := hf r hr
      simp only [Bool.and_eq_true, not_and] at h2
      exact Option.not_isSome_iff_eq_none.mp (by simpa using h2 hm)
    | some r =>
      have hmem := List.mem_of_find?_eq_some hf
      have hp := List.find?_some hf
      simp only [Bool.and_eq_true] at hp
      refine iff_of_false ?_ ?_
      · intro h
        have h2 : r.resized = none := h
        rw [h2] at hp
        simp at hp
      · intro h
        have := h r hmem hp.1
        rw [this] at hp
        simp at hp

/-- C8: `insert_image` unconditionally appends one fresh row — even when
a row for the same PhotoKey is already present — with starred = 0 and
date_time the parsed metadata timestamp when present and parseable,
0 otherwise; the starred-name set is unchanged by the insert. -/
theorem insert_image_spec (name : String) (size : UVec2) (resized : Bytes)
    (md : Option ImageMetadata) (db : Db) :
    ∃ r : Row,
      insert_image name size resized md db = db ++ [r] ∧
      r.is_starred = 0 ∧
      r.name = name ∧ r.x_res = (size.x : Int) ∧ r.y_res = (size.y : Int) ∧
      r.resized = some resized ∧
      r.date_time = (match md with
        | some m => (match m.date_time with
          | some s => (string_to_unix_timestamp s).getD 0
          | none => 0)
        | none => 0) ∧
      photo_exists name size (insert_image name size resized md db) = true ∧
      (insert_image name size resized md db).length = db.length + 1 ∧
      get_starred_image_names (insert_image name size resized md db) =
        get_starred_image_names db := by
  refine ⟨_, rfl, rfl, rfl, rfl, rfl, rfl, ?_, ?_, ?_, ?_⟩
  · cases md with
    | some m => rfl
    | none => rfl
  · rw [photo_exists_iff]
    refine ⟨_, List.mem_append_right _ (List.mem_singleton.mpr rfl), ?_⟩
    simp [rowMatches]
  · simp [insert_image]
  · simp [get_starred_image_names, insert_image, List.filter_append]

theorem check_schema_isOk (store : RawStore) :
    ∃ s2, check_schema store = .ok s2 := by
  unfold check_schema
  cases h : schema_is_ok store with
  | error e => exact ⟨_, rfl⟩
  | ok b => cases b <;> exact ⟨_, rfl⟩

/-- One bad persisted row for witnesses: an integer where the `name`
column's TEXT is expected. -/
def badRawRow : RawRow :=
  { name := .int 5, x_res := .int 0, y_res := .int 0, resized := .null,
    is_starred := .int 0, date_time := .int 0 }

/-- C6: opening the store never surfaces a schema-validation failure:
`check_schema` returns Ok for every persisted table, and whenever the
shape check does not positively succeed (read failure or no rows) the
table is destructively replaced by the freshly created empty one; the
open path `get_or_create_db` succeeds on every input. -/
theorem check_schema_spec (store : RawStore) :
    (∃ s2, check_schema store = .ok s2) ∧
    (schema_is_ok store ≠ .ok true →
      check_schema store = .ok create_schema ∧ create_schema = some []) ∧
    (∀ file : Option RawStore, ∃ s2, get_or_create_db file = .ok s2) := by
  refine ⟨check_schema_isOk store, ?_, ?_⟩
  · intro h
    unfold check_schema
    cases h2 : schema_is_ok store with
    | error e => exact ⟨rfl, rfl⟩
    | ok b =>
      cases b with
      | false => exact ⟨rfl, rfl⟩
      | true => exact absurd h2 h
  · intro file
    cases file with
    | none => exact ⟨_, rfl⟩
    | some s =>
      have h : get_or_create_db (some s) = check_schema s := rfl
      rw [h]
      exact check_schema_isOk s

/-- C6 witness: a store whose first row has an integer in the `name`
column fails the shape check and is replaced by the empty table, and a
store with no rows is likewise replaced; both opens succeed. -/
theorem check_schema_spec_witness :
    check_schema (some [badRawRow]) = .ok (some []) ∧
    check_schema (some []) = .ok (some []) := by
  constructor
  · have h := (check_schema_spec (some [badRawRow])).2.1
      (by intro h; exact Except.noConfusion h)
    exact h.2 ▸ h.1
  · have h := (check_schema_spec (some [])).2.1
      (by intro h; simp [schema_is_ok] at h)
    exact h.2 ▸ h.1

/-- Sample cached row for witnesses. -/
def rowA : Row :=
  { name := "A.JPG", x_res := 1920, y_res := 1080, resized := some [1, 2],
    is_starred := 0, date_time := 0 }

/-- Sample row whose bytes column is NULL, for witnesses. -/
def rowANull : Row :=
  { name := "A.JPG", x_res := 1920, y_res := 1080, resized := none,
    is_starred := 0, date_time := 0 }

/-- C9 witness: a lookup miss (no row for the key) and a matching row
with NULL bytes both evaluate to `none`, and a matching row with bytes
yields exactly a matching non-null row. -/
theorem try_get_image_from_db_spec_witness :
    try_get_image_from_db "B.JPG" ⟨1920, 1080⟩ [rowA] = none ∧
    try_get_image_from_db "A.JPG" ⟨1920, 1080⟩ [rowANull] = none ∧
    (∃ r ∈ [rowA], rowMatches "A.JPG" ⟨1920, 1080⟩ r = true ∧
      r.resized = some [1, 2]) := by
  refine ⟨?_, ?_, ?_⟩
  · exact (try_get_image_from_db_spec "B.JPG" ⟨1920, 1080⟩ [rowA]).2.mpr
      (by decide)
  · exact (try_get_image_from_db_spec "A.JPG" ⟨1920, 1080⟩ [rowANull]).2.mpr
      (by decide)
  · exact (try_get_image_from_db_spec "A.JPG" ⟨1920, 1080⟩ [rowA]).1 [1, 2]
      (by decide)

/-- C5: the orientation tag drives the rotation in `load_image`: tag 6
rotates 90 degrees (dimensions transposed), tag 3 rotates 180 degrees,
tag 8 rotates 270 degrees, and any other tag, absent orientation, or a
failed metadata read leaves the decoded image unrotated, with no error
in any case. -/
theorem load_image_orientation_spec (decoded : DynamicImage)
    (m : ImageMetadata) (e : Error) :
    (m.orientation = some 6 →
      load_image decoded (.ok m) = rotate90 decoded ∧
      (load_image decoded (.ok m)).width = decoded.height ∧
      (load_image decoded (.ok m)).height = decoded.width) ∧
    (m.orientation = some 3 → load_image decoded (.ok m) = rotate180 decoded) ∧
    (m.orientation = some 8 → load_image decoded (.ok m) = rotate270 decoded) ∧
    (∀ tag : Nat, m.orientation = some tag → tag ≠ 3 → tag ≠ 6 → tag ≠ 8 →
      load_image decoded (.ok m) = decoded) ∧
    (m.orientation = none → load_image decoded (.ok m) = decoded) ∧
    load_image decoded (.error e) = decoded := by
  obtain ⟨ori, iso, mdl, expt, fn, dt, fl⟩ := m
  refine ⟨?_, ?_, ?_, ?_, ?_, rfl⟩
  · rintro rfl
    exact ⟨rfl, rfl, rfl⟩
  · rintro rfl
    rfl
  · rintro rfl
    rfl
  · rintro tag rfl h3 h6 h8
    rcases tag with _ | _ | _ | _ | _ | _ | _ | _ | _ | tag
    · rfl
    · rfl
    · rfl
    · exact absurd rfl h3
    · rfl
    · rfl
    · exact absurd rfl h6
    · rfl
    · exact absurd rfl h8
    · rfl
  · rintro rfl
    rfl

/-- C5 witness: a 4000x3000 source tagged orientation 6 loads as
3000x4000; tags 3, 8, an unknown tag 5, an absent tag and a failed
metadata read behave as stated. -/
theorem load_image_orientation_spec_witness :
    load_image ⟨4000, 3000⟩
        (.ok { orientation := some 6, iso := none, model := none,
               exposure_time := none, f_number := none, date_time := none,
               focal_length := none }) = ⟨3000, 4000⟩ ∧
    load_image ⟨4000, 3000⟩
        (.ok { orientation := some 5, iso := none, model := none,
               exposure_time := none, f_number := none, date_time := none,
               focal_length := none }) = ⟨4000, 3000⟩ ∧
    load_image ⟨4000, 3000⟩ (.error .exif) = ⟨4000, 3000⟩ := by
  refine ⟨?_, ?_, ?_⟩
  · have h := (load_image_orientation_spec ⟨4000, 3000⟩
      { orientation := some 6, iso := none, model := none,
        exposure_time := none, f_number := none, date_time := none,
        focal_length := none } .exif).1 rfl
    exact h.1
  · exact (load_image_orientation_spec ⟨4000, 3000⟩
      { orientation := some 5, iso := none, model := none,
        exposure_time := none, f_number := none, date_time := none,
        focal_length := none } .exif).2.2.2.1 5 rfl
      (by decide) (by decide) (by decide)
  · exact (load_image_orientation_spec ⟨4000, 3000⟩
      { orientation := none, iso := none, model := none,
        exposure_time := none, f_number := none, date_time := none,
        focal_length := none } .exif).2.2.2.2.2

/-- C4 counterexample: with an empty store, `set_starred(name, true)`
matches no row, so the following `starred_names()` does not include the
name — the round trip fails without an existing cache row. -/
theorem set_starred_round_trip_counterexample :
    "IMG_01.JPG" ∉ get_starred_image_names
      (update_image_is_starred "IMG_01.JPG" true ([] : Db)) := by
  decide

/-- C4 (amended): provided at least one cache row exists for the name,
`set_starred(name, true)` followed by `starred_names()` includes the
name, a subsequent `set_starred(name, false)` removes it, and for either
flag value the update rewrites exactly the rows bearing that name — at
every resolution — leaving all other rows untouched. -/
theorem set_starred_round_trip (name : String) (db : Db)
    (h : ∃ r ∈ db, r.name = name) :
    name ∈ get_starred_image_names (update_image_is_starred name true db) ∧
    name ∉ get_starred_image_names
      (update_image_is_starred name false
        (update_image_is_starred name true db)) ∧
    (∀ b : Bool, ∀ i : Nat, ∀ hi : i < db.length,
      (update_image_is_starred name b db).get
        ⟨i, by simpa [update_image_is_starred] using hi⟩ =
        (if (db.get ⟨i, hi⟩).name = name then
          { db.get ⟨i, hi⟩ with is_starred := if b then 1 else 0 }
        else db.get ⟨i, hi⟩)) :=
  ⟨mem_starred_update_true name db h,
   not_mem_starred_update_false name _,
   fun b i hi => update_is_starred_getElem name b db i hi⟩

/-- Sample row named IMG_01.JPG for the star round-trip witness. -/
def rowIMG : Row :=
  { name := "IMG_01.JPG", x_res := 1920, y_res := 1080,
    resized := some [3], is_starred := 0, date_time := 0 }

/-- C4 witness: the round trip on a one-row store holding IMG_01.JPG. -/
theorem set_starred_round_trip_witness :
    "IMG_01.JPG" ∈ get_starred_image_names
      (update_image_is_starred "IMG_01.JPG" true [rowIMG]) ∧
    "IMG_01.JPG" ∉ get_starred_image_names
      (update_image_is_starred "IMG_01.JPG" false
        (update_image_is_starred "IMG_01.JPG" true [rowIMG])) := by
  have h := set_starred_round_trip "IMG_01.JPG" [rowIMG]
    ⟨rowIMG, by decide, by decide⟩
  exact ⟨h.1, h.2.1⟩

/-- C10: updating the star flag for a name with no matching row in the
store is not an error (the operation is total and returns) and is a
no-op on the table; consequently `set_starred(name, true)` followed by
`starred_names()` fails to include the name when no row for it exists —
the round trip requires an existing cache row. -/
theorem update_missing_name_frame (name : String) (db : Db)
    (h : ∀ r ∈ db, r.name ≠ name) :
    (∀ b : Bool, update_image_is_starred name b db = db) ∧
    name ∉ get_starred_image_names
      (update_image_is_starred name true db) := by
  have key : ∀ b : Bool, update_image_is_starred name b db = db := by
    intro b
    unfold update_image_is_starred
    have h2 : ∀ r ∈ db, (if r.name == name then
        ({ r with is_starred := if b then 1 else 0 } : Row) else r) = id r := by
      intro r hr
      rw [if_neg (by simpa [beq_iff_eq] using h r hr)]
      rfl
    rw [List.map_congr_left h2, List.map_id]
  refine ⟨key, ?_⟩
  rw [key true, mem_get_starred_iff]
  rintro ⟨r, hr, hn, _⟩
  exact h r hr hn

/-- C10 witness: flag update for a name absent from a one-row store
leaves the store unchanged and the name unstarred. -/
theorem update_missing_name_frame_witness :
    update_image_is_starred "B.JPG" true [rowA] = [rowA] ∧
    "B.JPG" ∉ get_starred_image_names
      (update_image_is_starred "B.JPG" true [rowA]) := by
  have h := update_missing_name_frame "B.JPG" [rowA] (by decide)
  exact ⟨h.1 true, h.2⟩

/-! Lemmas about one background pass (`run_items` / `update_cache`). -/

theorem photo_exists_append (name : String) (size : UVec2) (db l2 : Db) :
    photo_exists name size (db ++ l2) =
      (photo_exists name size db || l2.any (rowMatches name size)) := by
  simp [photo_exists, List.any_append]

theorem insert_image_photo_exists (name n2 : String) (size s2 : UVec2)
    (resized : Bytes) (md : Option ImageMetadata) (db : Db)
    (h : photo_exists n2 s2 db = true) :
    photo_exists n2 s2 (insert_image name size resized md db) = true := by
  unfold insert_image
  rw [photo_exists_append, h, Bool.true_or]

theorem photo_exists_insert_self (name : String) (size : UVec2)
    (resized : Bytes) (md : Option ImageMetadata) (db : Db) :
    photo_exists name size (insert_image name size resized md db) = true := by
  unfold insert_image
  rw [photo_exists_append, Bool.or_eq_true]
  right
  simp [rowMatches]

theorem update_cache_image_eq (lo : String → Except Error Bytes)
    (md : String → Option ImageMetadata) (N : Nat) (size : UVec2)
    (n : String) (st : PassState) :
    update_cache_image lo md N size n st =
      (if photo_exists n size st.db then
        .ok { db := st.db, num_processed := st.num_processed + 1,
              progress := progressPercentage (st.num_processed + 1) N,
              events := st.events ++
                [progressPercentage (st.num_processed + 1) N] }
      else
        match lo n with
        | .error e => .error e
        | .ok resized =>
          .ok { db := insert_image n size resized (md n) st.db,
                num_processed := st.num_processed + 1,
                progress := progressPercentage (st.num_processed + 1) N,
                events := st.events ++
                  [progressPercentage (st.num_processed + 1) N] }) := by
  unfold update_cache_image load_and_insert_image
  by_cases h : photo_exists n size st.db
  · rw [if_pos h, if_pos h]
  · rw [if_neg h, if_neg h]
    cases lo n <;> rfl

theorem update_cache_image_ok_char (lo : String → Except Error Bytes)
    (md : String → Option ImageMetadata) (N : Nat) (size : UVec2)
    (n : String) (st st2 : PassState)
    (h : update_cache_image lo md N size n st = .ok st2) :
    st2.num_processed = st.num_processed + 1 ∧
    st2.events = st.events ++
      [progressPercentage (st.num_processed + 1) N] ∧
    photo_exists n size st2.db = true ∧
    (∀ n3 s3, photo_exists n3 s3 st.db = true →
      photo_exists n3 s3 st2.db = true) := by
  rw [update_cache_image_eq] at h
  by_cases hc : photo_exists n size st.db
  · rw [if_pos hc] at h
    injection h with h
    subst h
    exact ⟨rfl, rfl, hc, fun n3 s3 h3 => h3⟩
  · rw [if_neg hc] at h
    cases hlo : lo n with
    | error e => rw [hlo] at h; exact absurd h (by simp)
    | ok resized =>
      rw [hlo] at h
      injection h with h
      subst h
      exact ⟨rfl, rfl, photo_exists_insert_self n size resized (md n) st.db,
        fun n3 s3 h3 =>
          insert_image_photo_exists n n3 size s3 resized (md n) st.db h3⟩

theorem run_items_cons (lo : String → Except Error Bytes)
    (md : String → Option ImageMetadata) (N : Nat) (size : UVec2)
    (n : String) (rest : List String) (st : PassState) :
    run_items lo md N size (n :: rest) st =
      (match update_cache_image lo md N size n st with
      | .error e => (st, some e)
      | .ok st2 => run_items lo md N size rest st2) := rfl

theorem run_items_cons_err (lo : String → Except Error Bytes)
    (md : String → Option ImageMetadata) (N : Nat) (size : UVec2)
    (n : String) (rest : List String) (st : PassState) (e : Error)
    (h : update_cache_image lo md N size n st = .error e) :
    run_items lo md N size (n :: rest) st = (st, some e) := by
  rw [run_items_cons, h]

theorem run_items_cons_ok (lo : String → Except Error Bytes)
    (md : String → Option ImageMetadata) (N : Nat) (size : UVec2)
    (n : String) (rest : List String) (st st2 : PassState)
    (h : update_cache_image lo md N size n st = .ok st2) :
    run_items lo md N size (n :: rest) st =
      run_items lo md N size rest st2 := by
  rw [run_items_cons, h]

theorem run_items_append (lo : String → Except Error Bytes)
    (md : String → Option ImageMetadata) (N : Nat) (size : UVec2)
    (l1 l2 : List String) (st : PassState) :
    run_items lo md N size (l1 ++ l2) st =
      (match run_items lo md N size l1 st with
      | (st1, none) => run_items lo md N size l2 st1
      | (st1, some e) => (st1, some e)) := by
  induction l1 generalizing st with
  | nil => rfl
  | cons n rest ih =>
    rw [List.cons_append]
    cases h : update_cache_image lo md N size n st with
    | error e =>
      rw [run_items_cons_err lo md N size n (rest ++ l2) st e h,
        run_items_cons_err lo md N size n rest st e h]
    | ok st2 =>
      rw [run_items_cons_ok lo md N size n (rest ++ l2) st st2 h,
        run_items_cons_ok lo md N size n rest st st2 h, ih st2]

theorem update_cache_eq_walk (lo : String → Except Error Bytes)
    (md : String → Option ImageMetadata) (names : List String) (k : Nat)
    (size : UVec2) (db : Db) (p0 : Int) :
    update_cache lo md names k size db p0 =
      run_items lo md names.length size (walkNames names k)
        { db := db, num_processed := 0, progress := p0, events := [] } := by
  unfold update_cache walkNames
  rw [run_items_append]
  cases h : run_items lo md names.length size (names.drop (k + 1))
      { db := db, num_processed := 0, progress := p0, events := [] } with
  | mk st1 err =>
    cases err <;> rfl

theorem run_items_no_error (lo : String → Except Error Bytes)
    (md : String → Option ImageMetadata) (N : Nat) (size : UVec2)
    (hok : ∀ n, ∃ b, lo n = .ok b) (l : List String) (st : PassState) :
    (run_items lo md N size l st).2 = none := by
  induction l generalizing st with
  | nil => rfl
  | cons n rest ih =>
    by_cases hc : photo_exists n size st.db
    · rw [run_items_cons_ok lo md N size n rest st _
        (by rw [update_cache_image_eq, if_pos hc])]
      exact ih _
    · obtain ⟨b, hb⟩ := hok n
      rw [run_items_cons_ok lo md N size n rest st _
        (by rw [update_cache_image_eq, if_neg hc, hb])]
      exact ih _

theorem run_items_ok_char (lo : String → Except Error Bytes)
    (md : String → Option ImageMetadata) (N : Nat) (size : UVec2)
    (l : List String) (st : PassState)
    (h : (run_items lo md N size l st).2 = none) :
    (run_items lo md N size l st).1.num_processed =
      st.num_processed + l.length ∧
    (run_items lo md N size l st).1.events =
      st.events ++ (List.range l.length).map
        (fun j => progressPercentage (st.num_processed + j + 1) N) := by
  induction l generalizing st with
  | nil => exact ⟨rfl, by simp [run_items]⟩
  | cons n rest ih =>
    cases h2 : update_cache_image lo md N size n st with
    | error e =>
      rw [run_items_cons_err lo md N size n rest st e h2] at h
      exact absurd h (by simp)
    | ok st2 =>
      rw [run_items_cons_ok lo md N size n rest st st2 h2] at h ⊢
      obtain ⟨hnp, hev, _, _⟩ :=
        update_cache_image_ok_char lo md N size n st st2 h2
      obtain ⟨ihnp, ihev⟩ := ih st2 h
      constructor
      · rw [ihnp, hnp, List.length_cons]
        omega
      · rw [ihev, hev, hnp, List.length_cons, List.range_succ_eq_map,
          List.map_cons, List.map_map, List.append_assoc,
          List.singleton_append]
        congr 1
        rw [show st.num_processed + 0 + 1 = st.num_processed + 1 from by omega]
        congr 1
        apply List.map_congr_left
        intro j hj
        show progressPercentage (st.num_processed + 1 + j + 1) N =
          progressPercentage (st.num_processed + (j + 1) + 1) N
        rw [show st.num_processed + 1 + j + 1 =
          st.num_processed + (j + 1) + 1 from by omega]

theorem run_items_photo_exists_mono (lo : String → Except Error Bytes)
    (md : String → Option ImageMetadata) (N : Nat) (size : UVec2)
    (l : List String) (st : PassState) (n3 : String) (s3 : UVec2)
    (h : photo_exists n3 s3 st.db = true) :
    photo_exists n3 s3 (run_items lo md N size l st).1.db = true := by
  induction l generalizing st with
  | nil => exact h
  | cons n rest ih =>
    cases h2 : update_cache_image lo md N size n st with
    | error e =>
      rw [run_items_cons_err lo md N size n rest st e h2]
      exact h
    | ok st2 =>
      rw [run_items_cons_ok lo md N size n rest st st2 h2]
      obtain ⟨_, _, _, hmono⟩ :=
        update_cache_image_ok_char lo md N size n st st2 h2
      exact ih st2 (hmono n3 s3 h)

theorem run_items_coverage (lo : String → Except Error Bytes)
    (md : String → Option ImageMetadata) (N : Nat) (size : UVec2)
    (l : List String) (st : PassState)
    (h : (run_items lo md N size l st).2 = none) :
    ∀ n ∈ l, photo_exists n size (run_items lo md N size l st).1.db = true := by
  induction l generalizing st with
  | nil => intro n hn; exact absurd hn (List.not_mem_nil n)
  | cons n2 rest ih =>
    intro n hn
    cases h2 : update_cache_image lo md N size n2 st with
    | error e =>
      rw [run_items_cons_err lo md N size n2 rest st e h2] at h
      exact absurd h (by simp)
    | ok st2 =>
      rw [run_items_cons_ok lo md N size n2 rest st st2 h2] at h ⊢
      rcases List.mem_cons.mp hn with hn | hn
      · subst hn
        obtain ⟨_, _, hself, _⟩ :=
          update_cache_image_ok_char lo md N size n st st2 h2
        exact run_items_photo_exists_mono lo md N size rest st2 n size hself
      · exact ih st2 h n hn

theorem walkNames_length (names : List String) (k : Nat)
    (hk : k < names.length) :
    (walkNames names k).length = names.length := by
  unfold walkNames
  rw [List.length_append, List.length_drop, List.length_take]
  omega

theorem walkNames_perm (names : List String) (k : Nat) :
    (walkNames names k).Perm names :=
  List.perm_append_comm.trans
    (List.Perm.of_eq (List.take_append_drop (k + 1) names))

theorem walkNames_get (names : List String) (k : Nat)
    (hk : k < names.length) (i : Nat) (hi : i < names.length) :
    (walkNames names k).get
      ⟨i, by rw [walkNames_length names k hk]; exact hi⟩ =
      names.get ⟨(k + 1 + i) % names.length,
        Nat.mod_lt _ (by omega)⟩ := by
  have key : ∀ hw : i < (names.drop (k + 1) ++ names.take (k + 1)).length,
      (names.drop (k + 1) ++ names.take (k + 1)).get ⟨i, hw⟩ =
      names.get ⟨(k + 1 + i) % names.length, Nat.mod_lt _ (by omega)⟩ := by
    intro hw
    simp only [List.get_eq_getElem]
    by_cases hcase : i < names.length - (k + 1)
    · rw [List.getElem_append_left (by rw [List.length_drop]; exact hcase),
        List.getElem_drop]
      have hidx : (k + 1 + i) % names.length = k + 1 + i :=
        Nat.mod_eq_of_lt (by omega)
      simp only [hidx]
    · rw [List.getElem_append_right (by rw [List.length_drop]; omega)]
      simp only [List.length_drop]
      rw [List.getElem_take]
      have hidx : (k + 1 + i) % names.length =
          i - (names.length - (k + 1)) := by
        rw [Nat.mod_eq_sub_mod (by omega), Nat.mod_eq_of_lt (by omega)]
        omega
      simp only [hidx]
  exact key _

/-- C2: an uninterrupted, failure-free background pass starting while
index k is shown visits exactly the photo sequence
drop (k+1) ++ take (k+1) — i.e. indices k+1, ..., N-1, 0, ..., k — a
permutation of the photo list in which position i holds the photo at
index (k+1+i) mod N; the pass completes and afterwards every photo has a
cache row at the target size. -/
theorem background_pass_walk_spec (lo : String → Except Error Bytes)
    (md : String → Option ImageMetadata) (names : List String) (k : Nat)
    (size : UVec2) (db : Db) (p0 : Int)
    (hk : k < names.length) (hok : ∀ n, ∃ b, lo n = .ok b) :
    update_cache lo md names k size db p0 =
      run_items lo md names.length size (walkNames names k)
        { db := db, num_processed := 0, progress := p0, events := [] } ∧
    (walkNames names k).Perm names ∧
    (∀ i : Nat, ∀ hi : i < names.length,
      (walkNames names k).get
        ⟨i, by rw [walkNames_length names k hk]; exact hi⟩ =
        names.get ⟨(k + 1 + i) % names.length, Nat.mod_lt _ (by omega)⟩) ∧
    (update_cache lo md names k size db p0).2 = none ∧
    (∀ n ∈ names, photo_exists n size
      (update_cache lo md names k size db p0).1.db = true) := by
  have heq := update_cache_eq_walk lo md names k size db p0
  have hnone : (update_cache lo md names k size db p0).2 = none := by
    rw [heq]
    exact run_items_no_error lo md names.length size hok _ _
  refine ⟨heq, walkNames_perm names k,
    fun i hi => walkNames_get names k hk i hi, hnone, ?_⟩
  intro n hn
  rw [heq]
  exact run_items_coverage lo md names.length size (walkNames names k) _
    (run_items_no_error lo md names.length size hok _ _) n
    ((walkNames_perm names k).mem_iff.mpr hn)

/-- C2 witness: the concrete scenario of the spec — empty store, photos
A/B/C, current index 1, target 1920x1080: the walk order is C, A, B, the
pass completes, and all three photos end up cached at the target size. -/
theorem background_pass_walk_spec_witness :
    walkNames ["A.JPG", "B.JPG", "C.JPG"] 1 = ["C.JPG", "A.JPG", "B.JPG"] ∧
    (update_cache (fun _ => .ok [7]) (fun _ => none)
      ["A.JPG", "B.JPG", "C.JPG"] 1 ⟨1920, 1080⟩ [] 100).2 = none ∧
    photo_exists "A.JPG" ⟨1920, 1080⟩
      (update_cache (fun _ => .ok [7]) (fun _ => none)
        ["A.JPG", "B.JPG", "C.JPG"] 1 ⟨1920, 1080⟩ [] 100).1.db = true ∧
    photo_exists "B.JPG" ⟨1920, 1080⟩
      (update_cache (fun _ => .ok [7]) (fun _ => none)
        ["A.JPG", "B.JPG", "C.JPG"] 1 ⟨1920, 1080⟩ [] 100).1.db = true ∧
    photo_exists "C.JPG" ⟨1920, 1080⟩
      (update_cache (fun _ => .ok [7]) (fun _ => none)
        ["A.JPG", "B.JPG", "C.JPG"] 1 ⟨1920, 1080⟩ [] 100).1.db = true := by
  have h := background_pass_walk_spec (fun _ => .ok [7]) (fun _ => none)
    ["A.JPG", "B.JPG", "C.JPG"] 1 ⟨1920, 1080⟩ [] 100 (by decide)
    (fun n => ⟨[7], rfl⟩)
  refine ⟨rfl, h.2.2.2.1, ?_, ?_, ?_⟩
  · exact h.2.2.2.2 "A.JPG" (by decide)
  · exact h.2.2.2.2 "B.JPG" (by decide)
  · exact h.2.2.2.2 "C.JPG" (by decide)

theorem progressPercentage_mono (a b N : Nat) (h : a ≤ b) :
    progressPercentage a N ≤ progressPercentage b N := by
  unfold progressPercentage
  exact_mod_cast Nat.div_le_div_right (by omega)

theorem progressPercentage_last (N : Nat) (h : 0 < N) :
    progressPercentage N N = 100 := by
  unfold progressPercentage
  obtain ⟨m, rfl⟩ : ∃ m, N = m + 1 := ⟨N - 1, by omega⟩
  have h1 : 100 * (m + 1) + (m + 1) - 1 = m + (m + 1) * 100 := by ring_nf; omega
  rw [h1, Nat.add_mul_div_left _ _ (show 0 < m + 1 from by omega),
    Nat.div_eq_of_lt (by omega)]
  decide

/-- C3: the progress trace of an uninterrupted, failure-free pass has
one entry per photo, written after the photo whether it was skipped or
built: entry j is ceil(100*(j+1)/N); the whole trace is non-decreasing
and its last entry is 100. -/
theorem background_pass_progress_trace (lo : String → Except Error Bytes)
    (md : String → Option ImageMetadata) (names : List String) (k : Nat)
    (size : UVec2) (db : Db) (p0 : Int)
    (hk : k < names.length) (hok : ∀ n, ∃ b, lo n = .ok b) :
    (update_cache lo md names k size db p0).1.events =
      (List.range names.length).map
        (fun j => progressPercentage (j + 1) names.length) ∧
    List.Sorted (· ≤ ·) (update_cache lo md names k size db p0).1.events ∧
    (update_cache lo md names k size db p0).1.events.getLast? =
      some 100 := by
  have heq := update_cache_eq_walk lo md names k size db p0
  have hnone := run_items_no_error lo md names.length size hok
    (walkNames names k)
    { db := db, num_processed := 0, progress := p0, events := [] }
  obtain ⟨hnp, hev⟩ := run_items_ok_char lo md names.length size
    (walkNames names k) _ hnone
  have hevents : (update_cache lo md names k size db p0).1.events =
      (List.range names.length).map
        (fun j => progressPercentage (j + 1) names.length) := by
    rw [heq, hev, walkNames_length names k hk]
    simp only [List.nil_append]
    apply List.map_congr_left
    intro j hj
    rw [show 0 + j + 1 = j + 1 from by omega]
  refine ⟨hevents, ?_, ?_⟩
  · rw [hevents]
    exact List.Pairwise.map _
      (fun a b hab => progressPercentage_mono (a + 1) (b + 1) names.length
        (by omega))
      (List.pairwise_lt_range names.length)
  · rw [hevents]
    obtain ⟨m, hm⟩ : ∃ m, names.length = m + 1 := ⟨names.length - 1, by omega⟩
    rw [hm, List.range_succ, List.map_append, List.map_singleton,
      List.getLast?_concat, progressPercentage_last (m + 1) (by omega)]

/-- C3 witness: the three-photo pass over an empty store stores the
progress values 34, 67, 100 — non-decreasing and ending at 100. -/
theorem background_pass_progress_trace_witness :
    (update_cache (fun _ => .ok [7]) (fun _ => none)
      ["A.JPG", "B.JPG", "C.JPG"] 1 ⟨1920, 1080⟩ [] 100).1.events =
      [34, 67, 100] ∧
    List.Sorted (· ≤ ·) (update_cache (fun _ => .ok [7]) (fun _ => none)
      ["A.JPG", "B.JPG", "C.JPG"] 1 ⟨1920, 1080⟩ [] 100).1.events ∧
    (update_cache (fun _ => .ok [7]) (fun _ => none)
      ["A.JPG", "B.JPG", "C.JPG"] 1 ⟨1920, 1080⟩ [] 100).1.events.getLast? =
      some 100 := by
  have h := background_pass_progress_trace (fun _ => .ok [7]) (fun _ => none)
    ["A.JPG", "B.JPG", "C.JPG"] 1 ⟨1920, 1080⟩ [] 100 (by decide)
    (fun n => ⟨[7], rfl⟩)
  exact ⟨by decide, h.2.1, h.2.2⟩

/-! Lemmas about the spawned-thread system model (`run_sys`). -/

theorem list_set_self {α : Type} (l : List α) (t : Nat) (x : α)
    (h : l[t]? = some x) : l.set t x = l := by
  induction l generalizing t with
  | nil => simp at h
  | cons a rest ih =>
    cases t with
    | zero =>
      simp only [List.getElem?_cons_zero, Option.some.injEq] at h
      rw [← h]
      rfl
    | succ n =>
      simp only [List.getElem?_cons_succ] at h
      show a :: rest.set n x = a :: rest
      rw [ih n h]

theorem getElem?_some_lt {α : Type} (l : List α) (t : Nat) (x : α)
    (h : l[t]? = some x) : t < l.length := by
  by_contra hc
  rw [List.getElem?_eq_none (by omega)] at h
  exact Option.noConfusion h

/-- Prepend already-recorded progress events to a pass result; the
table, counters and error outcome are untouched. -/
def shiftEvents (ev : List Int) (r : PassState × Option Error) :
    PassState × Option Error :=
  ({ db := r.1.db, num_processed := r.1.num_processed,
     progress := r.1.progress, events := ev ++ r.1.events }, r.2)

theorem shiftEvents_shiftEvents (ev1 ev2 : List Int)
    (r : PassState × Option Error) :
    shiftEvents ev1 (shiftEvents ev2 r) = shiftEvents (ev1 ++ ev2) r := by
  simp [shiftEvents]

theorem update_cache_image_events (lo : String → Except Error Bytes)
    (md : String → Option ImageMetadata) (N : Nat) (size : UVec2)
    (n : String) (db : Db) (np : Nat) (pg : Int) (ev : List Int) :
    update_cache_image lo md N size n
      { db := db, num_processed := np, progress := pg, events := ev } =
      (match update_cache_image lo md N size n
        { db := db, num_processed := np, progress := pg, events := [] } with
      | .error e => .error e
      | .ok st2 => .ok { st2 with events := ev ++ st2.events }) := by
  rw [update_cache_image_eq, update_cache_image_eq]
  by_cases hc : photo_exists n size db
  · rw [if_pos hc, if_pos hc]
    simp
  · rw [if_neg hc, if_neg hc]
    cases lo n with
    | error e => rfl
    | ok resized => simp

theorem run_items_shift (lo : String → Except Error Bytes)
    (md : String → Option ImageMetadata) (N : Nat) (size : UVec2)
    (l : List String) (db : Db) (np : Nat) (pg : Int) (ev : List Int) :
    run_items lo md N size l
      { db := db, num_processed := np, progress := pg, events := ev } =
      shiftEvents ev (run_items lo md N size l
        { db := db, num_processed := np, progress := pg, events := [] }) := by
  induction l generalizing db np pg ev with
  | nil => simp [run_items, shiftEvents]
  | cons n rest ih =>
    cases hstep : update_cache_image lo md N size n
        { db := db, num_processed := np, progress := pg, events := [] } with
    | error e =>
      have hev : update_cache_image lo md N size n
          { db := db, num_processed := np, progress := pg, events := ev } =
          .error e := by
        rw [update_cache_image_events, hstep]
      rw [run_items_cons_err lo md N size n rest _ e hev,
        run_items_cons_err lo md N size n rest _ e hstep]
      simp [shiftEvents]
    | ok st2 =>
      obtain ⟨db2, np2, pg2, ev2⟩ := st2
      have hev : update_cache_image lo md N size n
          { db := db, num_processed := np, progress := pg, events := ev } =
          .ok { db := db2, num_processed := np2, progress := pg2,
                events := ev ++ ev2 } := by
        rw [update_cache_image_events, hstep]
      rw [run_items_cons_ok lo md N size n rest _ _ hev,
        run_items_cons_ok lo md N size n rest _ _ hstep,
        ih db2 np2 pg2 (ev ++ ev2), ih db2 np2 pg2 ev2,
        shiftEvents_shiftEvents]

theorem run_items_state_components (lo : String → Except Error Bytes)
    (md : String → Option ImageMetadata) (N : Nat) (size : UVec2)
    (l : List String) (st : PassState) :
    (run_items lo md N size l st).1.db =
      (run_items lo md N size l
        { db := st.db, num_processed := st.num_processed,
          progress := st.progress, events := [] }).1.db ∧
    (run_items lo md N size l st).1.num_processed =
      (run_items lo md N size l
        { db := st.db, num_processed := st.num_processed,
          progress := st.progress, events := [] }).1.num_processed ∧
    (run_items lo md N size l st).1.progress =
      (run_items lo md N size l
        { db := st.db, num_processed := st.num_processed,
          progress := st.progress, events := [] }).1.progress ∧
    (run_items lo md N size l st).2 =
      (run_items lo md N size l
        { db := st.db, num_processed := st.num_processed,
          progress := st.progress, events := [] }).2 := by
  obtain ⟨db, np, pg, ev⟩ := st
  rw [run_items_shift lo md N size l db np pg ev]
  exact ⟨rfl, rfl, rfl, rfl⟩

theorem run_sys_append (lo : String → Except Error Bytes)
    (md : String → Option ImageMetadata) (names : List String)
    (e1 e2 : List SysEvent) (s : Sys) :
    run_sys lo md names (e1 ++ e2) s =
      run_sys lo md names e2 (run_sys lo md names e1 s) := by
  induction e1 generalizing s with
  | nil => rfl
  | cons e rest ih => exact ih (sys_step lo md e names s)

theorem update_cache_image_isOk (lo : String → Except Error Bytes)
    (md : String → Option ImageMetadata) (N : Nat) (size : UVec2)
    (n : String) (st : PassState) (hok : ∀ n2, ∃ b, lo n2 = .ok b) :
    ∃ st2, update_cache_image lo md N size n st = .ok st2 := by
  rw [update_cache_image_eq]
  by_cases hc : photo_exists n size st.db
  · rw [if_pos hc]
    exact ⟨_, rfl⟩
  · rw [if_neg hc]
    obtain ⟨b, hb⟩ := hok n
    rw [hb]
    exact ⟨_, rfl⟩

theorem run_sys_step_thread (lo : String → Except Error Bytes)
    (md : String → Option ImageMetadata) (names : List String)
    (hok : ∀ n, ∃ b, lo n = .ok b) (t : Nat) (m : Nat) :
    ∀ (s : Sys) (th : WorkerThread), s.threads[t]? = some th →
    run_sys lo md names (List.replicate m (.step t)) s =
      { db := (run_items lo md th.total th.size (th.rest.take m)
          { db := s.db, num_processed := th.num_processed,
            progress := s.progress, events := [] }).1.db,
        threads := s.threads.set t
          { th with
            num_processed :=
              (run_items lo md th.total th.size (th.rest.take m)
                { db := s.db, num_processed := th.num_processed,
                  progress := s.progress, events := [] }).1.num_processed,
            rest := th.rest.drop m },
        progress := (run_items lo md th.total th.size (th.rest.take m)
          { db := s.db, num_processed := th.num_processed,
            progress := s.progress, events := [] }).1.progress } := by
  induction m with
  | zero =>
    intro s th hth
    show s = _
    rw [List.take_zero, List.drop_zero]
    have heta : ({ th with
        num_processed := (run_items lo md th.total th.size []
          { db := s.db, num_processed := th.num_processed,
            progress := s.progress, events := [] }).1.num_processed,
        rest := th.rest } : WorkerThread) = th := rfl
    rw [heta, list_set_self s.threads t th hth]
    rfl
  | succ m ih =>
    intro s th hth
    show run_sys lo md names (List.replicate m (.step t))
      (sys_step lo md (.step t) names s) = _
    cases hrest : th.rest with
    | nil =>
      have hstep : sys_step lo md (.step t) names s = s := by
        simp only [sys_step, hth, hrest]
      rw [hstep, ih s th hth, hrest]
      simp only [List.take_nil, List.drop_nil]
    | cons n rest2 =>
      obtain ⟨st2, hst2⟩ := update_cache_image_isOk lo md th.total th.size n
        { db := s.db, num_processed := th.num_processed,
          progress := s.progress, events := [] } hok
      have hstep : sys_step lo md (.step t) names s =
          { db := st2.db,
            threads := s.threads.set t
              { th with num_processed := st2.num_processed, rest := rest2 },
            progress := st2.progress } := by
        simp only [sys_step, hth, hrest, hst2]
      have hth2 : (sys_step lo md (.step t) names s).threads[t]? =
          some { th with num_processed := st2.num_processed, rest := rest2 } := by
        rw [hstep]
        exact @List.getElem?_set_self _ _ _ _
          (getElem?_some_lt s.threads t th hth)
      rw [ih _ _ hth2, hstep]
      have hcomp := run_items_state_components lo md th.total th.size
        (rest2.take m) st2
      have hcons : run_items lo md th.total th.size ((n :: rest2).take (m + 1))
          { db := s.db, num_processed := th.num_processed,
            progress := s.progress, events := [] } =
          run_items lo md th.total th.size (rest2.take m) st2 := by
        rw [List.take_succ_cons]
        exact run_items_cons_ok lo md th.total th.size n (rest2.take m) _
          st2 hst2
      rw [hcons]
      congr 1
      · exact hcomp.1.symm
      · rw [List.set_set]
        exact congrArg (fun x => s.threads.set t
          ({ size := th.size, total := th.total, num_processed := x,
             rest := rest2.drop m } : WorkerThread)) hcomp.2.1.symm
      · exact hcomp.2.2.1.symm

/-- Oracle for the concrete restart-on-resize runs: every load+resize
succeeds with a one-byte payload. -/
def lo1 : String → Except Error Bytes := fun _ => .ok [1]

/-- Oracle for the concrete restart-on-resize runs: no EXIF metadata. -/
def md1 : String → Option ImageMetadata := fun _ => none

/-- The three-photo list of the spec's concrete scenario. -/
def names1 : List String := ["A.JPG", "B.JPG", "C.JPG"]

/-- C1 counterexample: photos A/B/C, current index 1, pass running at
size A = 1920x1080.  After the first per-photo step (C.JPG) a new
resolution event (2560x1440) arrives — the claimed behaviour is that no
further photo is built for size A.  But `on_resize` only spawns a second
thread and nothing signals the first, so the very next step of the old
thread still builds A.JPG at size A: before that step no size-A row for
A.JPG exists, after it one does. -/
theorem restart_on_resize_counterexample :
    photo_exists "A.JPG" ⟨1920, 1080⟩ (run_sys lo1 md1 names1
      [.resize ⟨1920, 1080⟩ 1, .step 0, .resize ⟨2560, 1440⟩ 1]
      { db := [], threads := [], progress := 100 }).db = false ∧
    photo_exists "A.JPG" ⟨1920, 1080⟩ (run_sys lo1 md1 names1
      [.resize ⟨1920, 1080⟩ 1, .step 0, .resize ⟨2560, 1440⟩ 1, .step 0]
      { db := [], threads := [], progress := 100 }).db = true := by
  constructor
  · decide
  · decide

/-- C1 (amended): a resolution notification arriving while the worker is
processing photo i of N for size A does not abandon the size-A pass — it
only spawns a second, concurrent pass.  For every interleaving that lets
the old thread finish its remaining N-i photos and the new thread run
its N photos: already-written size-A entries remain queryable, the old
pass completes so every photo ends up cached at size A, and the fresh
pass (walk order computed from the handler's image index at spawn time)
covers all N photos at the new size B. -/
theorem resize_spawns_concurrent_pass (lo : String → Except Error Bytes)
    (md : String → Option ImageMetadata) (names : List String)
    (k k2 i : Nat) (sizeA sizeB : UVec2) (db : Db) (p0 : Int)
    (hk : k < names.length) (hk2 : k2 < names.length)
    (hA : resolution_ok sizeA = true) (hB : resolution_ok sizeB = true)
    (hok : ∀ n, ∃ b, lo n = .ok b) :
    ∀ n ∈ names,
      photo_exists n sizeA (run_sys lo md names
        ([.resize sizeA k] ++ List.replicate i (.step 0) ++
          [.resize sizeB k2] ++
          List.replicate (names.length - i) (.step 0) ++
          List.replicate names.length (.step 1))
        { db := db, threads := [], progress := p0 }).db = true ∧
      photo_exists n sizeB (run_sys lo md names
        ([.resize sizeA k] ++ List.replicate i (.step 0) ++
          [.resize sizeB k2] ++
          List.replicate (names.length - i) (.step 0) ++
          List.replicate names.length (.step 1))
        { db := db, threads := [], progress := p0 }).db = true := by
  intro n hn
  have step1 : run_sys lo md names [SysEvent.resize sizeA k]
      { db := db, threads := [], progress := p0 } =
      { db := db,
        threads := [{ size := sizeA, total := names.length,
                      num_processed := 0, rest := walkNames names k }],
        progress := p0 } := by
    show sys_step lo md (.resize sizeA k) names _ = _
    simp [sys_step, on_resize, hA]
  have step2 : run_sys lo md names (List.replicate i (.step 0))
      { db := db,
        threads := [{ size := sizeA, total := names.length,
                      num_processed := 0, rest := walkNames names k }],
        progress := p0 } =
      { db := (run_items lo md names.length sizeA
          ((walkNames names k).take i)
          { db := db, num_processed := 0, progress := p0,
            events := [] }).1.db,
        threads := [{ size := sizeA, total := names.length,
                      num_processed := (run_items lo md names.length sizeA
                        ((walkNames names k).take i)
                        { db := db, num_processed := 0, progress := p0,
                          events := [] }).1.num_processed,
                      rest := (walkNames names k).drop i }],
        progress := (run_items lo md names.length sizeA
          ((walkNames names k).take i)
          { db := db, num_processed := 0, progress := p0,
            events := [] }).1.progress } :=
    run_sys_step_thread lo md names hok 0 i
      { db := db,
        threads := [{ size := sizeA, total := names.length,
                      num_processed := 0, rest := walkNames names k }],
        progress := p0 }
      { size := sizeA, total := names.length,
        num_processed := 0, rest := walkNames names k } rfl
  have step3 : run_sys lo md names [SysEvent.resize sizeB k2]
      { db := (run_items lo md names.length sizeA
          ((walkNames names k).take i)
          { db := db, num_processed := 0, progress := p0,
            events := [] }).1.db,
        threads := [{ size := sizeA, total := names.length,
                      num_processed := (run_items lo md names.length sizeA
                        ((walkNames names k).take i)
                        { db := db, num_processed := 0, progress := p0,
                          events := [] }).1.num_processed,
                      rest := (walkNames names k).drop i }],
        progress := (run_items lo md names.length sizeA
          ((walkNames names k).take i)
          { db := db, num_processed := 0, progress := p0,
            events := [] }).1.progress } =
      { db := (run_items lo md names.length sizeA
          ((walkNames names k).take i)
          { db := db, num_processed := 0, progress := p0,
            events := [] }).1.db,
        threads := [{ size := sizeA, total := names.length,
                      num_processed := (run_items lo md names.length sizeA
                        ((walkNames names k).take i)
                        { db := db, num_processed := 0, progress := p0,
                          events := [] }).1.num_processed,
                      rest := (walkNames names k).drop i },
                    { size := sizeB, total := names.length,
                      num_processed := 0, rest := walkNames names k2 }],
        progress := (run_items lo md names.length sizeA
          ((walkNames names k).take i)
          { db := db, num_processed := 0, progress := p0,
            events := [] }).1.progress } := by
    show sys_step lo md (.resize sizeB k2) names _ = _
    simp [sys_step, on_resize, hB]
  rw [run_sys_append, run_sys_append, run_sys_append, run_sys_append,
    step1, step2, step3]
  generalize hA1 : run_items lo md names.length sizeA
    ((walkNames names k).take i)
    { db := db, num_processed := 0, progress := p0, events := [] } = a1
  have herr1 : a1.2 = none := by
    rw [← hA1]
    exact run_items_no_error lo md names.length sizeA hok _ _
  obtain ⟨⟨db1, np1, pg1, ev1⟩, err1⟩ := a1
  dsimp only at herr1 ⊢
  subst herr1
  have step4 := run_sys_step_thread lo md names hok 0 (names.length - i)
    { db := db1,
      threads := [{ size := sizeA, total := names.length,
                    num_processed := np1,
                    rest := (walkNames names k).drop i },
                  { size := sizeB, total := names.length,
                    num_processed := 0, rest := walkNames names k2 }],
      progress := pg1 }
    { size := sizeA, total := names.length, num_processed := np1,
      rest := (walkNames names k).drop i } rfl
  rw [step4]
  dsimp only
  simp only [List.set]
  have htake : ((walkNames names k).drop i).take (names.length - i) =
      (walkNames names k).drop i :=
    List.take_of_length_le (le_of_eq (by
      rw [List.length_drop, walkNames_length names k hk]))
  generalize hA2 : run_items lo md names.length sizeA
    (((walkNames names k).drop i).take (names.length - i))
    { db := db1, num_processed := np1, progress := pg1, events := [] } = a2
  obtain ⟨⟨db2, np2, pg2, ev2⟩, err2⟩ := a2
  dsimp only
  have step5 := run_sys_step_thread lo md names hok 1 names.length
    { db := db2,
      threads := [{ size := sizeA, total := names.length,
                    num_processed := np2,
                    rest := ((walkNames names k).drop i).drop
                      (names.length - i) },
                  { size := sizeB, total := names.length,
                    num_processed := 0, rest := walkNames names k2 }],
      progress := pg2 }
    { size := sizeB, total := names.length, num_processed := 0,
      rest := walkNames names k2 } rfl
  rw [step5]
  dsimp only
  have htakeB : (walkNames names k2).take names.length =
      walkNames names k2 :=
    List.take_of_length_le (le_of_eq (walkNames_length names k2 hk2))
  have hwalkdb : (run_items lo md names.length sizeA (walkNames names k)
      { db := db, num_processed := 0, progress := p0,
        events := [] }).1.db = db2 := by
    conv_lhs => rw [show walkNames names k =
      (walkNames names k).take i ++ (walkNames names k).drop i from
      (List.take_append_drop i _).symm]
    rw [run_items_append, hA1]
    have hcomp := (run_items_state_components lo md names.length sizeA
      ((walkNames names k).drop i)
      ⟨db1, np1, pg1, ev1⟩).1
    show (run_items lo md names.length sizeA ((walkNames names k).drop i)
      ⟨db1, np1, pg1, ev1⟩).1.db = db2
    rw [hcomp]
    rw [htake] at hA2
    rw [show ({ db := db1, num_processed := np1, progress := pg1,
                events := [] } : PassState) =
      ({ db := (⟨db1, np1, pg1, ev1⟩ : PassState).db,
         num_processed := (⟨db1, np1, pg1, ev1⟩ : PassState).num_processed,
         progress := (⟨db1, np1, pg1, ev1⟩ : PassState).progress,
         events := [] } : PassState) from rfl] at hA2
    rw [hA2]
  have hcovA : photo_exists n sizeA db2 = true := by
    rw [← hwalkdb]
    exact run_items_coverage lo md names.length sizeA (walkNames names k) _
      (run_items_no_error lo md names.length sizeA hok _ _) n
      ((walkNames_perm names k).mem_iff.mpr hn)
  constructor
  · exact run_items_photo_exists_mono lo md names.length sizeB
      ((walkNames names k2).take names.length)
      { db := db2, num_processed := 0, progress := pg2, events := [] }
      n sizeA hcovA
  · have hcovB : photo_exists n sizeB (run_items lo md names.length sizeB
        ((walkNames names k2).take names.length)
        { db := db2, num_processed := 0, progress := pg2,
          events := [] }).1.db = true := by
      rw [htakeB]
      exact run_items_coverage lo md names.length sizeB (walkNames names k2)
        _ (run_items_no_error lo md names.length sizeB hok _ _) n
        ((walkNames_perm names k2).mem_iff.mpr hn)
    exact hcovB

/-- C1 witness: the concrete scenario — resize to 1920x1080 with index 1,
one per-photo step, resize to 2560x1440 mid-pass, old thread finishes,
new thread completes: A.JPG is cached at both sizes. -/
theorem resize_spawns_concurrent_pass_witness :
    photo_exists "A.JPG" ⟨1920, 1080⟩ (run_sys lo1 md1 names1
      ([.resize ⟨1920, 1080⟩ 1] ++ List.replicate 1 (.step 0) ++
        [.resize ⟨2560, 1440⟩ 1] ++
        List.replicate (names1.length - 1) (.step 0) ++
        List.replicate names1.length (.step 1))
      { db := [], threads := [], progress := 100 }).db = true ∧
    photo_exists "A.JPG" ⟨2560, 1440⟩ (run_sys lo1 md1 names1
      ([.resize ⟨1920, 1080⟩ 1] ++ List.replicate 1 (.step 0) ++
        [.resize ⟨2560, 1440⟩ 1] ++
        List.replicate (names1.length - 1) (.step 0) ++
        List.replicate names1.length (.step 1))
      { db := [], threads := [], progress := 100 }).db = true :=
  resize_spawns_concurrent_pass lo1 md1 names1 1 1 1 ⟨1920, 1080⟩
    ⟨2560, 1440⟩ [] 100 (by decide) (by decide) (by decide) (by decide)
    (fun n => ⟨[1], rfl⟩) "A.JPG" (by decide)

/-! Faithful failure model of the Cache Builder.  The source has three
ways a per-photo build can stop: a Rust `Err` propagated with the ?
operator, a thread panic from an `unwrap`, and success.  The oracles
below expose each fallible call of main.rs `load_image` /
`resize_jpg` / db.rs `insert_image` separately so that those three ways
stay distinguishable. -/

/-- Outcome of running a Rust callable that may return `Err` via the ?
operator or panic via `.unwrap()`: a panic unwinds the thread and never
reaches the caller as a value. -/
inductive RunResult (α : Type) where
  | ok (a : α)
  | err (e : Error)
  | panicked
deriving Repr, DecidableEq

/-- True exactly when the outcome is a returned (propagated) error. -/
def RunResult.isErr {α : Type} : RunResult α → Bool
  | .err _ => true
  | _ => false

/-- How one `update_cache` loop ends: all photos processed, a build
error returned through ?, or a panic unwinding the thread. -/
inductive PassEnd where
  | finished
  | failed (e : Error)
  | panicked
deriving Repr, DecidableEq

/-- main.rs `load_image` with its fallible calls explicit:
`File::open(&file_name)?` propagates an I/O error, but
`image::load(reader, Jpeg).unwrap()` panics on a decode failure instead
of returning it; a metadata failure only suppresses the rotation (the
approved rotation match `load_image`). -/
def load_image_f (openf : String → Option Error)
    (decode : String → Except Error DynamicImage)
    (meta : String → Except Error ImageMetadata) (name : String) :
    RunResult DynamicImage :=
  match openf name with
  | some e => .err e
  | none =>
    match decode name with
    | .error _ => .panicked
    | .ok img => .ok (load_image img (meta name))

/-- db.rs `insert_image` with the sqlite layer's own fallibility
(prepare/bind/next are each followed by ?): a failing INSERT propagates
the error and persists nothing; a successful one appends exactly the
row described by `insert_image`. -/
def insert_image_f (ins : String → Option Error) (name : String)
    (size : UVec2) (resized : Bytes) (metadata : Option ImageMetadata)
    (db : Db) : Except Error Db :=
  match ins name with
  | some e => .error e
  | none => .ok (insert_image name size resized metadata db)

/-- main.rs `load_and_insert_image` over the explicit failure model:
load (file open propagated, decode panic), resize+encode (`resizeEnc`,
propagated with ?), insert (propagated with ?).  A panic anywhere
aborts the thread: no error value reaches the caller, and the table is
only extended by a fully successful insert. -/
def load_and_insert_image_f (openf : String → Option Error)
    (decode : String → Except Error DynamicImage)
    (meta : String → Except Error ImageMetadata)
    (md : String → Option ImageMetadata)
    (resizeEnc : DynamicImage → UVec2 → Except Error Bytes)
    (ins : String → Option Error) (name : String) (size : UVec2)
    (db : Db) : RunResult (Bytes × Db) :=
  match load_image_f openf decode meta name with
  | .panicked => .panicked
  | .err e => .err e
  | .ok img =>
    match resizeEnc img size with
    | .error e => .err e
    | .ok resized =>
      match insert_image_f ins name size resized (md name) db with
      | .error e => .err e
      | .ok db2 => .ok (resized, db2)

/-- main.rs `update_cache_image` over the explicit failure model: the
skip-or-build step, then the progress update, with both an error return
and a panic cutting the step short. -/
def update_cache_image_f (openf : String → Option Error)
    (decode : String → Except Error DynamicImage)
    (meta : String → Except Error ImageMetadata)
    (md : String → Option ImageMetadata)
    (resizeEnc : DynamicImage → UVec2 → Except Error Bytes)
    (ins : String → Option Error) (num_images : Nat) (size : UVec2)
    (name : String) (st : PassState) : RunResult PassState :=
  match
    (if photo_exists name size st.db then
      .ok st.db
    else
      match load_and_insert_image_f openf decode meta md resizeEnc ins
          name size st.db with
      | .panicked => .panicked
      | .err e => .err e
      | .ok (_, db2) => .ok db2 : RunResult Db)
  with
  | .panicked => .panicked
  | .err e => .err e
  | .ok db2 =>
    let np := st.num_processed + 1
    let pct := progressPercentage np num_images
    .ok { db := db2, num_processed := np, progress := pct,
          events := st.events ++ [pct] }

/-- One `for` loop of main.rs `update_cache` over the explicit failure
model: a returned error ends the loop through ? with the state reached
so far, and a panic unwinds the thread — in both cases no later photo
is processed. -/
def run_items_f (openf : String → Option Error)
    (decode : String → Except Error DynamicImage)
    (meta : String → Except Error ImageMetadata)
    (md : String → Option ImageMetadata)
    (resizeEnc : DynamicImage → UVec2 → Except Error Bytes)
    (ins : String → Option Error) (num_images : Nat) (size : UVec2) :
    List String → PassState → PassState × PassEnd
  | [], st => (st, .finished)
  | n :: rest, st =>
    match update_cache_image_f openf decode meta md resizeEnc ins
        num_images size n st with
    | .panicked => (st, .panicked)
    | .err e => (st, .failed e)
    | .ok st2 => run_items_f openf decode meta md resizeEnc ins
        num_images size rest st2

theorem run_items_f_cons (openf : String → Option Error)
    (decode : String → Except Error DynamicImage)
    (meta : String → Except Error ImageMetadata)
    (md : String → Option ImageMetadata)
    (resizeEnc : DynamicImage → UVec2 → Except Error Bytes)
    (ins : String → Option Error) (N : Nat) (size : UVec2) (n : String)
    (rest : List String) (st : PassState) :
    run_items_f openf decode meta md resizeEnc ins N size (n :: rest) st =
      (match update_cache_image_f openf decode meta md resizeEnc ins
          N size n st with
      | .panicked => (st, .panicked)
      | .err e => (st, .failed e)
      | .ok st2 => run_items_f openf decode meta md resizeEnc ins
          N size rest st2) := rfl

theorem run_items_f_cons_failed (openf : String → Option Error)
    (decode : String → Except Error DynamicImage)
    (meta : String → Except Error ImageMetadata)
    (md : String → Option ImageMetadata)
    (resizeEnc : DynamicImage → UVec2 → Except Error Bytes)
    (ins : String → Option Error) (N : Nat) (size : UVec2) (n : String)
    (rest : List String) (st : PassState) (e : Error)
    (h : update_cache_image_f openf decode meta md resizeEnc ins
      N size n st = .err e) :
    run_items_f openf decode meta md resizeEnc ins N size (n :: rest) st =
      (st, .failed e) := by
  rw [run_items_f_cons, h]

theorem run_items_f_cons_panicked (openf : String → Option Error)
    (decode : String → Except Error DynamicImage)
    (meta : String → Except Error ImageMetadata)
    (md : String → Option ImageMetadata)
    (resizeEnc : DynamicImage → UVec2 → Except Error Bytes)
    (ins : String → Option Error) (N : Nat) (size : UVec2) (n : String)
    (rest : List String) (st : PassState)
    (h : update_cache_image_f openf decode meta md resizeEnc ins
      N size n st = .panicked) :
    run_items_f openf decode meta md resizeEnc ins N size (n :: rest) st =
      (st, .panicked) := by
  rw [run_items_f_cons, h]

theorem run_items_f_append (openf : String → Option Error)
    (decode : String → Except Error DynamicImage)
    (meta : String → Except Error ImageMetadata)
    (md : String → Option ImageMetadata)
    (resizeEnc : DynamicImage → UVec2 → Except Error Bytes)
    (ins : String → Option Error) (N : Nat) (size : UVec2)
    (l1 l2 : List String) (st : PassState) :
    run_items_f openf decode meta md resizeEnc ins N size (l1 ++ l2) st =
      (match run_items_f openf decode meta md resizeEnc ins N size l1 st with
      | (st1, .finished) => run_items_f openf decode meta md resizeEnc ins
          N size l2 st1
      | (st1, .failed e) => (st1, .failed e)
      | (st1, .panicked) => (st1, .panicked)) := by
  induction l1 generalizing st with
  | nil => rfl
  | cons n rest ih =>
    rw [List.cons_append]
    cases h : update_cache_image_f openf decode meta md resizeEnc ins
        N size n st with
    | panicked =>
      rw [run_items_f_cons_panicked openf decode meta md resizeEnc ins
          N size n (rest ++ l2) st h,
        run_items_f_cons_panicked openf decode meta md resizeEnc ins
          N size n rest st h]
    | err e =>
      rw [run_items_f_cons_failed openf decode meta md resizeEnc ins
          N size n (rest ++ l2) st e h,
        run_items_f_cons_failed openf decode meta md resizeEnc ins
          N size n rest st e h]
    | ok st2 =>
      have hstepL : run_items_f openf decode meta md resizeEnc ins N size
          (n :: (rest ++ l2)) st =
          run_items_f openf decode meta md resizeEnc ins N size
            (rest ++ l2) st2 := by
        rw [run_items_f_cons, h]
      have hstepR : run_items_f openf decode meta md resizeEnc ins N size
          (n :: rest) st =
          run_items_f openf decode meta md resizeEnc ins N size rest st2 := by
        rw [run_items_f_cons, h]
      rw [hstepL, hstepR, ih st2]

/-- Oracle for concrete failure runs: every file open succeeds. -/
def openf0 : String → Option Error := fun _ => none

/-- Oracle for concrete failure runs: B.JPG is corrupt — its JPEG
decode fails with an image error — while every other photo decodes to a
4000x3000 raster. -/
def decode0 : String → Except Error DynamicImage :=
  fun n => if n == "B.JPG" then .error .image
    else .ok { width := 4000, height := 3000 }

/-- Oracle for concrete failure runs: every decode succeeds. -/
def decodeOk : String → Except Error DynamicImage :=
  fun _ => .ok { width := 4000, height := 3000 }

/-- Oracle for concrete failure runs: the EXIF read fails (no rotation,
per the approved C5 behaviour). -/
def meta0 : String → Except Error ImageMetadata := fun _ => .error .exif

/-- Oracle for concrete failure runs: no metadata for the insert. -/
def md0 : String → Option ImageMetadata := fun _ => none

/-- Oracle for concrete failure runs: resize+encode always succeeds. -/
def enc0 : DynamicImage → UVec2 → Except Error Bytes := fun _ _ => .ok [1]

/-- Oracle for concrete failure runs: every INSERT succeeds. -/
def ins0 : String → Option Error := fun _ => none

/-- Oracle for concrete failure runs: the INSERT for B.JPG fails with a
sqlite error; every other insert succeeds. -/
def insB : String → Option Error :=
  fun n => if n == "B.JPG" then some .sqlite else none

/-- C7 counterexample: a corrupt B.JPG, whose JPEG decode fails.  The
Cache Builder invocation for B.JPG does not propagate the failure to
its caller: `load_image` unwraps the decode, so the thread panics and
no error value is ever returned (`isErr` is false) — refuting the claim
that a failure at any step is propagated.  In the pass over A, B, C the
panic unwinds after A was built: no row is inserted for B and C is
never examined. -/
theorem cache_builder_failure_counterexample :
    load_and_insert_image_f openf0 decode0 meta0 md0 enc0 ins0 "B.JPG"
      ⟨1920, 1080⟩ [] = .panicked ∧
    (load_and_insert_image_f openf0 decode0 meta0 md0 enc0 ins0 "B.JPG"
      ⟨1920, 1080⟩ []).isErr = false ∧
    (run_items_f openf0 decode0 meta0 md0 enc0 ins0 3 ⟨1920, 1080⟩
      ["A.JPG", "B.JPG", "C.JPG"]
      { db := [], num_processed := 0, progress := 100, events := [] }).2 =
      .panicked ∧
    photo_exists "B.JPG" ⟨1920, 1080⟩ (run_items_f openf0 decode0 meta0 md0
      enc0 ins0 3 ⟨1920, 1080⟩ ["A.JPG", "B.JPG", "C.JPG"]
      { db := [], num_processed := 0, progress := 100, events := [] }).1.db =
      false ∧
    photo_exists "C.JPG" ⟨1920, 1080⟩ (run_items_f openf0 decode0 meta0 md0
      enc0 ins0 3 ⟨1920, 1080⟩ ["A.JPG", "B.JPG", "C.JPG"]
      { db := [], num_processed := 0, progress := 100, events := [] }).1.db =
      false := by
  decide

/-- C7 (amended): in the Cache Builder a file-open failure, a
resize/encode failure and a store-insert failure are each propagated to
the caller as an error with nothing persisted, but a JPEG decode
failure panics the worker thread (the source unwraps the decode) and
never reaches the caller as an error value; inside a background pass
both a returned error and a panic end the pass at the failing photo:
the state already reached is kept, no row exists for the failing photo,
and no photo after it is processed. -/
theorem cache_builder_failure_spec (openf : String → Option Error)
    (decode : String → Except Error DynamicImage)
    (meta : String → Except Error ImageMetadata)
    (md : String → Option ImageMetadata)
    (resizeEnc : DynamicImage → UVec2 → Except Error Bytes)
    (ins : String → Option Error) (name : String) (size : UVec2)
    (db : Db) (N : Nat) (pre post : List String) (st : PassState) :
    (∀ e, openf name = some e →
      load_and_insert_image_f openf decode meta md resizeEnc ins name size
        db = .err e) ∧
    (∀ e, openf name = none → decode name = .error e →
      load_and_insert_image_f openf decode meta md resizeEnc ins name size
        db = .panicked) ∧
    (∀ img e, openf name = none → decode name = .ok img →
      resizeEnc (load_image img (meta name)) size = .error e →
      load_and_insert_image_f openf decode meta md resizeEnc ins name size
        db = .err e) ∧
    (∀ img b e, openf name = none → decode name = .ok img →
      resizeEnc (load_image img (meta name)) size = .ok b →
      ins name = some e →
      load_and_insert_image_f openf decode meta md resizeEnc ins name size
        db = .err e) ∧
    ((run_items_f openf decode meta md resizeEnc ins N size pre st).2 =
        .finished →
      photo_exists name size
        (run_items_f openf decode meta md resizeEnc ins N size pre
          st).1.db = false →
      (∀ e, load_and_insert_image_f openf decode meta md resizeEnc ins name
          size (run_items_f openf decode meta md resizeEnc ins N size pre
            st).1.db = .err e →
        run_items_f openf decode meta md resizeEnc ins N size
            (pre ++ name :: post) st =
          ((run_items_f openf decode meta md resizeEnc ins N size pre
            st).1, .failed e) ∧
        photo_exists name size (run_items_f openf decode meta md resizeEnc
          ins N size (pre ++ name :: post) st).1.db = false) ∧
      (load_and_insert_image_f openf decode meta md resizeEnc ins name size
          (run_items_f openf decode meta md resizeEnc ins N size pre
            st).1.db = .panicked →
        run_items_f openf decode meta md resizeEnc ins N size
            (pre ++ name :: post) st =
          ((run_items_f openf decode meta md resizeEnc ins N size pre
            st).1, .panicked) ∧
        photo_exists name size (run_items_f openf decode meta md resizeEnc
          ins N size (pre ++ name :: post) st).1.db = false)) := by
  refine ⟨?_, ?_, ?_, ?_, ?_⟩
  · intro e h
    simp only [load_and_insert_image_f, load_image_f, h]
  · intro e h1 h2
    simp only [load_and_insert_image_f, load_image_f, h1, h2]
  · intro img e h1 h2 h3
    simp only [load_and_insert_image_f, load_image_f, h1, h2, h3]
  · intro img b e h1 h2 h3 h4
    simp only [load_and_insert_image_f, load_image_f, insert_image_f,
      h1, h2, h3, h4]
  · intro hpre hmiss
    cases hr : run_items_f openf decode meta md resizeEnc ins N size pre st
      with
    | mk st1 en =>
      rw [hr] at hpre hmiss
      have hen : en = .finished := hpre
      subst hen
      have hm : photo_exists name size st1.db = false := hmiss
      constructor
      · intro e hload
        have hload2 : load_and_insert_image_f openf decode meta md resizeEnc
            ins name size st1.db = .err e := hload
        have hstep : update_cache_image_f openf decode meta md resizeEnc ins
            N size name st1 = .err e := by
          unfold update_cache_image_f
          rw [if_neg (by simp [hm]), hload2]
        have hrun : run_items_f openf decode meta md resizeEnc ins N size
            (pre ++ name :: post) st = (st1, .failed e) := by
          rw [run_items_f_append, hr]
          show run_items_f openf decode meta md resizeEnc ins N size
            (name :: post) st1 = _
          exact run_items_f_cons_failed openf decode meta md resizeEnc ins
            N size name post st1 e hstep
        refine ⟨hrun, ?_⟩
        rw [hrun]
        exact hm
      · intro hload
        have hload2 : load_and_insert_image_f openf decode meta md resizeEnc
            ins name size st1.db = .panicked := hload
        have hstep : update_cache_image_f openf decode meta md resizeEnc ins
            N size name st1 = .panicked := by
          unfold update_cache_image_f
          rw [if_neg (by simp [hm]), hload2]
        have hrun : run_items_f openf decode meta md resizeEnc ins N size
            (pre ++ name :: post) st = (st1, .panicked) := by
          rw [run_items_f_append, hr]
          show run_items_f openf decode meta md resizeEnc ins N size
            (name :: post) st1 = _
          exact run_items_f_cons_panicked openf decode meta md resizeEnc ins
            N size name post st1 hstep
        refine ⟨hrun, ?_⟩
        rw [hrun]
        exact hm

/-- C7 witness: the corrupt-B.JPG pass panics after building A (decode
unwrap), and the insert-fails-for-B pass stops at B with the sqlite
error propagated; in both runs C is never processed. -/
theorem cache_builder_failure_spec_witness :
    load_and_insert_image_f openf0 decode0 meta0 md0 enc0 ins0 "B.JPG"
      ⟨1920, 1080⟩ [] = .panicked ∧
    load_and_insert_image_f openf0 decodeOk meta0 md0 enc0 insB "B.JPG"
      ⟨1920, 1080⟩ [] = .err .sqlite ∧
    run_items_f openf0 decode0 meta0 md0 enc0 ins0 3 ⟨1920, 1080⟩
      ["A.JPG", "B.JPG", "C.JPG"]
      { db := [], num_processed := 0, progress := 100, events := [] } =
      ((run_items_f openf0 decode0 meta0 md0 enc0 ins0 3 ⟨1920, 1080⟩
        ["A.JPG"]
        { db := [], num_processed := 0, progress := 100,
          events := [] }).1, .panicked) ∧
    run_items_f openf0 decodeOk meta0 md0 enc0 insB 3 ⟨1920, 1080⟩
      ["A.JPG", "B.JPG", "C.JPG"]
      { db := [], num_processed := 0, progress := 100, events := [] } =
      ((run_items_f openf0 decodeOk meta0 md0 enc0 insB 3 ⟨1920, 1080⟩
        ["A.JPG"]
        { db := [], num_processed := 0, progress := 100,
          events := [] }).1, .failed .sqlite) := by
  have hpanic := (cache_builder_failure_spec openf0 decode0 meta0 md0 enc0
    ins0 "B.JPG" ⟨1920, 1080⟩ [] 3 ["A.JPG"] ["C.JPG"]
    { db := [], num_processed := 0, progress := 100,
      events := [] }).2.1 .image rfl rfl
  have hins := (cache_builder_failure_spec openf0 decodeOk meta0 md0 enc0
    insB "B.JPG" ⟨1920, 1080⟩ [] 3 ["A.JPG"] ["C.JPG"]
    { db := [], num_processed := 0, progress := 100,
      events := [] }).2.2.2.1 ⟨4000, 3000⟩ [1] .sqlite rfl rfl rfl rfl
  have hpassP := ((cache_builder_failure_spec openf0 decode0 meta0 md0 enc0
    ins0 "B.JPG" ⟨1920, 1080⟩ [] 3 ["A.JPG"] ["C.JPG"]
    { db := [], num_processed := 0, progress := 100,
      events := [] }).2.2.2.2 (by decide) (by decide)).2 (by decide)
  have hpassF := ((cache_builder_failure_spec openf0 decodeOk meta0 md0 enc0
    insB "B.JPG" ⟨1920, 1080⟩ [] 3 ["A.JPG"] ["C.JPG"]
    { db := [], num_processed := 0, progress := 100,
      events := [] }).2.2.2.2 (by decide) (by decide)).1 .sqlite (by decide)
  exact ⟨hpanic, hins, hpassP.1, hpassF.1⟩

end PhotoFarm
